import Mathlib

/-!
Verification of the event-impact analytics engine of the UK-Web-Change-Tracker
repository (src/app/analytics/windows.py, src/app/analytics/joiners.py,
src/app/api/timeseries.py).

Modelling choices:
* Stored float values are modelled as rationals (ℚ); the square root inside the
  population standard deviation produces a real number (ℝ).
* Python/Mongo ISO-8601 timestamp strings are compared lexicographically by
  code point; we embed that order as an executable Boolean comparison `strLe`
  (Lean's built-in String order does not reduce in the kernel).
* `datetime` values are modelled as seconds since 0001-01-01T00:00:00 in the
  proleptic Gregorian calendar, mirroring CPython's ordinal arithmetic
  (`_ymd2ord` / `_ord2ymd`); `datetime.fromisoformat` is modelled for the
  documented date-only input shape `YYYY-MM-DD`, and an out-of-range result of
  timedelta arithmetic (Python OverflowError) or a parse failure (ValueError)
  is modelled as `none`.
* Mongo queries (`find` with an equality/range filter followed by `sort`) are
  modelled as `List.filter` followed by a stable insertion sort.
-/

namespace UKWebChangeTracker

/-! ## String order and upper-casing -/

/-- Lexicographic comparison of code-point lists, the order Python uses for
`str` comparison (and Mongo for its string keys). -/
def lexLe : List Char → List Char → Bool
  | [], _ => true
  | _ :: _, [] => false
  | a :: as, b :: bs =>
    if a.toNat < b.toNat then true
    else if a.toNat = b.toNat then lexLe as bs
    else false

/-- Python string comparison `a <= b`. -/
def strLe (a b : String) : Bool := lexLe a.data b.data

/-- ASCII upper-casing of one character, as `str.upper()` acts on the
country-code strings used by this repository. -/
def upperChar (c : Char) : Char :=
  if 97 ≤ c.toNat ∧ c.toNat ≤ 122 then Char.ofNat (c.toNat - 32) else c

/-- Python `s.upper()` restricted to ASCII content. -/
def strUpper (s : String) : String := ⟨s.data.map upperChar⟩

/-! ## Calendar arithmetic (CPython `datetime` internals) -/

/-- Gregorian leap-year test (`datetime._is_leap`). -/
def isLeap (y : Nat) : Bool := (y % 4 == 0 && y % 100 != 0) || y % 400 == 0

/-- Number of days in month `m` of year `y` (`datetime._days_in_month`). -/
def daysInMonth (y m : Nat) : Nat :=
  if m = 2 then (if isLeap y then 29 else 28)
  else if m = 4 ∨ m = 6 ∨ m = 9 ∨ m = 11 then 30
  else 31

/-- Cumulative day counts before each month in a non-leap year
(`datetime._DAYS_BEFORE_MONTH`, index `m - 1`). -/
def monthCums : List Nat := [0, 31, 59, 90, 120, 151, 181, 212, 243, 273, 304, 334]

/-- Days in year `y` strictly before month `m` (`datetime._days_before_month`). -/
def daysBeforeMonth (y m : Nat) : Nat :=
  monthCums.getD (m - 1) 0 + (if 2 < m ∧ isLeap y then 1 else 0)

/-- Days before January 1 of year `y` (`datetime._days_before_year`). -/
def daysBeforeYear (y : Nat) : Nat :=
  let n := y - 1
  n * 365 + n / 4 - n / 100 + n / 400

/-- Proleptic-Gregorian ordinal of a date; 0001-01-01 is ordinal 1
(`datetime._ymd2ord`). -/
def toOrdinal (y m d : Nat) : Nat := daysBeforeYear y + daysBeforeMonth y m + d

/-- Inverse of `toOrdinal` (`datetime._ord2ymd`): 400/100/4/1-year cycle
decomposition followed by CPython's month estimate `(n + 50) >> 5` and its
one-step correction. -/
def ordToYmd (nn : Nat) : Nat × Nat × Nat :=
  let n0 := nn - 1
  let n400 := n0 / 146097
  let r400 := n0 % 146097
  let n100 := r400 / 36524
  let r100 := r400 % 36524
  let n4 := r100 / 1461
  let r4 := r100 % 1461
  let n1 := r4 / 365
  let n := r4 % 365
  let year := n400 * 400 + 1 + n100 * 100 + n4 * 4 + n1
  if n1 = 4 ∨ n100 = 4 then (year - 1, 12, 31)
  else
    let month := (n + 50) / 32
    let month := if daysBeforeMonth year month ≤ n then month else month - 1
    (year, month, n - daysBeforeMonth year month + 1)

/-- Ordinal of 9999-12-31, the largest `datetime` date (`datetime.MAXYEAR`). -/
def maxOrdinal : Nat := 3652059

/-- Seconds since 0001-01-01T00:00:00 of midnight of a date. -/
def dateSecs (y m d : Nat) : Int := ((toOrdinal y m d : Int) - 1) * 86400

/-- Largest representable second (23:59:59 on 9999-12-31). -/
def maxSecs : Int := (maxOrdinal : Int) * 86400 - 1

/-- Decimal digit character for `n % 10`. -/
def natDigit (n : Nat) : Char := Char.ofNat (48 + n % 10)

/-- Two-digit zero-padded decimal rendering. -/
def pad2 (n : Nat) : String := ⟨[natDigit (n / 10), natDigit n]⟩

/-- Four-digit zero-padded decimal rendering. -/
def pad4 (n : Nat) : String :=
  ⟨[natDigit (n / 1000), natDigit (n / 100), natDigit (n / 10), natDigit n]⟩

/-- Python `datetime.isoformat()` on a whole-second value: renders
`YYYY-MM-DDTHH:MM:SS` (the zero microsecond field is omitted by Python). -/
def renderDateTime (secs : Nat) : String :=
  let ord := secs / 86400 + 1
  let tod := secs % 86400
  let y := (ordToYmd ord).1
  let m := (ordToYmd ord).2.1
  let d := (ordToYmd ord).2.2
  pad4 y ++ "-" ++ pad2 m ++ "-" ++ pad2 d ++ "T" ++
    pad2 (tod / 3600) ++ ":" ++ pad2 (tod % 3600 / 60) ++ ":" ++ pad2 (tod % 60)

/-- Numeric value of an ASCII digit character, `none` otherwise. -/
def digitVal (c : Char) : Option Nat :=
  if 48 ≤ c.toNat ∧ c.toNat ≤ 57 then some (c.toNat - 48) else none

/-- Python `datetime.fromisoformat` on the documented date-only request shape
`YYYY-MM-DD` (zero-padded, year 0001-9999, month and day validated against the
Gregorian calendar); any other input raises ValueError, modelled as `none`. -/
def fromisoformatDate (s : String) : Option (Nat × Nat × Nat) :=
  match s.data with
  | [y1, y2, y3, y4, h1, m1, m2, h2, d1, d2] =>
    if h1 = '-' ∧ h2 = '-' then
      match digitVal y1, digitVal y2, digitVal y3, digitVal y4,
            digitVal m1, digitVal m2, digitVal d1, digitVal d2 with
      | some a, some b, some c, some d, some e, some f, some g, some h =>
        let y := a * 1000 + b * 100 + c * 10 + d
        let mo := e * 10 + f
        let da := g * 10 + h
        if 1 ≤ y ∧ 1 ≤ mo ∧ mo ≤ 12 ∧ 1 ≤ da ∧ da ≤ daysInMonth y mo then
          some (y, mo, da)
        else none
      | _, _, _, _, _, _, _, _ => none
    else none
  | _ => none

/-- Window derivation of `compute_window_stats` (windows.py lines 56-61):
`pre_since = event - pre_days days`, `pre_until = event - 1 second`,
`post_since = event`, `post_until = event + post_days days`, each rendered back
to an ISO string; `none` models the ValueError of a malformed `event` or the
OverflowError of out-of-range timedelta arithmetic. -/
def computeWindowBounds (event : String) (preDays postDays : Int) :
    Option (String × String × String × String) :=
  match fromisoformatDate event with
  | none => none
  | some (y, m, d) =>
    let e := dateSecs y m d
    let preS := e - preDays * 86400
    let preU := e - 1
    let postU := e + postDays * 86400
    if 0 ≤ preS ∧ preS ≤ maxSecs ∧ 0 ≤ preU ∧ preU ≤ maxSecs ∧
        0 ≤ postU ∧ postU ≤ maxSecs then
      some (renderDateTime preS.toNat, renderDateTime preU.toNat,
            renderDateTime e.toNat, renderDateTime postU.toNat)
    else none

/-! ## Time-series data model and source access -/

/-- A stored observation of the `traffic_ts` collection: one document
`{country, metric, ts, value}` with the float value modelled as a rational. -/
structure Point where
  country : String
  metric : String
  ts : String
  value : ℚ

/-- Embedding of `_find_series` (windows.py lines 11-19): filter the stored
points on upper-cased country, metric and the inclusive ISO-string range
`since <= ts <= until`, then sort ascending by `ts`. -/
def findSeries (db : List Point) (country metric sinceIso untilIso : String) :
    List Point :=
  List.insertionSort (fun p q : Point => strLe p.ts q.ts = true)
    (db.filter fun p =>
      p.country == strUpper country && p.metric == metric &&
      strLe sinceIso p.ts && strLe p.ts untilIso)

/-- Value of one fetched series at an exact timestamp: the dict comprehension
`{pt[ts]: pt[value] for pt in s}` keeps the last write for a duplicated
timestamp, so the lookup returns the last matching value. -/
def seriesDict (s : List Point) (ts : String) : Option ℚ :=
  ((s.filter fun p => p.ts == ts).map Point.value).getLast?

/-- Embedding of `_align_by_ts` (windows.py lines 22-30): the row keys are the
sorted distinct timestamps of all input series, and each row holds, per input
series in order, that series value at the exact timestamp or `none`. The
Python dict iterates in key-insertion order, i.e. sorted order, so the frame
is modelled as an association list in sorted key order. -/
def alignByTs (seriesList : List (List Point)) : List (String × List (Option ℚ)) :=
  let allTs :=
    (List.insertionSort (fun a b : String => strLe a b = true)
      (seriesList.flatMap fun s => s.map Point.ts)).dedup
  allTs.map fun ts => (ts, seriesList.map fun s => seriesDict s ts)

/-- Embedding of `_mean` (windows.py lines 33-39): `None` for an empty list,
otherwise the arithmetic mean. -/
def listMean (vals : List ℚ) : Option ℚ :=
  if vals = [] then none else some (vals.sum / vals.length)

/-- Population variance, the square of what `np.std` computes. -/
def popVar (l : List ℚ) : ℚ :=
  ((l.map fun x => (x - l.sum / l.length) ^ 2).sum) / l.length

/-- Population standard deviation `np.std` (divide by N, then square root). -/
noncomputable def popStd (l : List ℚ) : ℝ := Real.sqrt (popVar l)

/-- Diff series of `_period_stats` (windows.py lines 81-89): for every aligned
row keep `subject - mean(present controls)` when the subject slot (index 0) is
present and at least one control slot is present, and drop the row otherwise. -/
def periodDiffs (seriesList : List (List Point)) : List ℚ :=
  (alignByTs seriesList).filterMap fun row =>
    match row.2.head? with
    | some (some base) =>
      let ctrls := (row.2.drop 1).filterMap id
      if ctrls = [] then none
      else some (base - ctrls.sum / (ctrls.length : ℚ))
    | _ => none

/-- Embedding of `_period_stats` (windows.py lines 80-92): `none` when the
diff series is empty, otherwise its mean and population standard deviation
(the Python `or 0.0` fallback on `np.std` is the identity for a non-empty
diff series, whose standard deviation is a non-negative real). -/
noncomputable def periodStats (seriesList : List (List Point)) : Option (ℚ × ℝ) :=
  let diffs := periodDiffs seriesList
  if diffs = [] then none
  else some (diffs.sum / (diffs.length : ℚ), popStd diffs)

/-- The `pct_delta` computation (windows.py lines 69-71): Python first tests
`mean_pre` for truthiness (`None` and `0` both fail), then substitutes `None`
when `mean_post is None`. -/
def pctDelta (meanPre meanPost : Option ℚ) : Option ℚ :=
  match meanPre, meanPost with
  | some mp, some mo => if mp = 0 then none else some ((mo - mp) / mp)
  | _, _ => none

/-- The z-score computation (windows.py lines 94-101): defined only when both
period stats exist and the pre-window standard deviation is strictly positive
(`if pre_std and pre_std > 0`, where `0.0` is falsy). -/
noncomputable def zScore (preList postList : List (List Point)) : Option ℝ :=
  match periodStats preList, periodStats postList with
  | some (preMean, preStd), some (postMean, _) =>
    if 0 < preStd then some (((postMean : ℝ) - (preMean : ℝ)) / preStd)
    else none
  | _, _ => none

/-- The dictionary returned by `compute_window_stats` (windows.py lines
109-121); `controls_detail` is an association list in control order, each
entry carrying the raw pre- and post-window point counts. -/
structure WindowStatsReport where
  country : String
  metric : String
  event : String
  preDaysField : Int
  postDaysField : Int
  meanPre : Option ℚ
  meanPost : Option ℚ
  pctDeltaField : Option ℚ
  zScoreVsControls : Option ℝ
  controlsField : List String
  controlsDetail : List (String × Nat × Nat)

/-- Embedding of `compute_window_stats` (windows.py lines 42-121). `none`
models the unhandled ValueError/OverflowError of the window derivation; every
other input produces a report. `controlsOpt = none` models the Python default
`controls=None`, normalised by `controls = controls or []`. -/
noncomputable def computeWindowStats (db : List Point) (country metric event : String)
    (preDays postDays : Int) (controlsOpt : Option (List String)) :
    Option WindowStatsReport :=
  let controls := match controlsOpt with | none => [] | some cs => cs
  match computeWindowBounds event preDays postDays with
  | none => none
  | some (preS, preU, postS, postU) =>
    let sPre := findSeries db country metric preS preU
    let sPost := findSeries db country metric postS postU
    let meanPre := listMean (sPre.map Point.value)
    let meanPost := listMean (sPost.map Point.value)
    some
      { country := strUpper country
        metric := metric
        event := event
        preDaysField := preDays
        postDaysField := postDays
        meanPre := meanPre
        meanPost := meanPost
        pctDeltaField := pctDelta meanPre meanPost
        zScoreVsControls :=
          if controls = [] then none
          else
            zScore (sPre :: controls.map fun c => findSeries db c metric preS preU)
                   (sPost :: controls.map fun c => findSeries db c metric postS postU)
        controlsField := controls
        controlsDetail :=
          if controls = [] then []
          else controls.map fun c =>
            (c, (findSeries db c metric preS preU).length,
                (findSeries db c metric postS postU).length) }

/-- One call to `_find_series`, identified by its arguments. -/
structure FetchCall where
  country : String
  metric : String
  sinceIso : String
  untilIso : String
deriving DecidableEq

/-- The ordered list of `_find_series` calls one `compute_window_stats` call
performs, transcribed from its call sites (windows.py lines 63-64, 77-78 and
105-106): two subject fetches, then per control a pre- and a post-window fetch
for the z-score, then per control two further fetches for `controls_detail`.
A failed window derivation raises before any fetch. -/
def fetchTrace (country metric event : String) (preDays postDays : Int)
    (controlsOpt : Option (List String)) : List FetchCall :=
  let controls := match controlsOpt with | none => [] | some cs => cs
  match computeWindowBounds event preDays postDays with
  | none => []
  | some (preS, preU, postS, postU) =>
    [⟨country, metric, preS, preU⟩, ⟨country, metric, postS, postU⟩] ++
      (if controls = [] then []
       else
        (controls.map fun c => (⟨c, metric, preS, preU⟩ : FetchCall)) ++
        (controls.map fun c => (⟨c, metric, postS, postU⟩ : FetchCall)) ++
        (controls.flatMap fun c =>
          [(⟨c, metric, preS, preU⟩ : FetchCall),
           (⟨c, metric, postS, postU⟩ : FetchCall)]))

/-- Outcome of one request to the `/api/window-stats` route: a JSON error with
an HTTP status (client errors are 4xx), an unhandled exception (Flask turns it
into a 500 server error), or the JSON-serialised report. -/
inductive ApiResponse where
  | clientError (status : Nat) (message : String)
  | serverError
  | ok (report : WindowStatsReport)

/-- Embedding of the `/api/window-stats` route handler (timeseries.py lines
95-120). `eventArg = none` models an absent `event` query parameter; Python
`if not event` also rejects the empty string. `country` is upper-cased by the
handler and the controls are upper-cased by `_parse_csv`; `pre`/`post` arrive
already parsed (`_parse_int` substitutes the default 14 instead of failing,
so it never raises). No other validation exists in the handler. -/
noncomputable def windowStatsHandler (db : List Point) (eventArg : Option String)
    (countryArg metric : String) (preDays postDays : Int)
    (controlsArg : List String) : ApiResponse :=
  let country := strUpper countryArg
  let controls := controlsArg.map strUpper
  match eventArg with
  | none => .clientError 400 "missing event (YYYY-MM-DD)"
  | some event =>
    if event = "" then .clientError 400 "missing event (YYYY-MM-DD)"
    else
      match computeWindowStats db country metric event preDays postDays
          (if controls = [] then none else some controls) with
      | none => .serverError
      | some r => .ok r

/-! ## Top-entity join (joiners.py) -/

/-- A document of the `domain_rank` collection. -/
structure RankRecord where
  country : String
  date : String
  domain : String
  rank : Int
  category : String

/-- Embedding of `_latest_date_for_country` (joiners.py lines 9-17): project
the dates of the country, sort them descending (a `YYYY-MM-DD` string sorts
lexicographically, which is chronological), and keep the first. -/
def latestDateForCountry (db : List RankRecord) (country : String) : Option String :=
  (List.insertionSort (fun a b : String => strLe b a = true)
    ((db.filter fun r => r.country == strUpper country).map RankRecord.date)).head?

/-- Embedding of `top_domains_for_day` (joiners.py lines 20-42): resolve the
day (`date or _latest_date_for_country(country)`, where Python treats the
empty string as falsy, then `if not day: return None, []`), filter on country,
day and the optional category, sort ascending by rank and truncate. -/
def topDomainsForDay (db : List RankRecord) (country : String)
    (dateArg : Option String) (limit : Nat) (category : Option String) :
    Option String × List RankRecord :=
  let c := strUpper country
  let day : Option String :=
    match dateArg with
    | some d => if d = "" then latestDateForCountry db c else some d
    | none => latestDateForCountry db c
  match day with
  | none => (none, [])
  | some d =>
    if d = "" then (none, [])
    else
      let rows := db.filter fun r =>
        r.country == c && r.date == d &&
          (match category with
           | some cat => if cat = "" then true else r.category == cat
           | none => true)
      (some d,
        (List.insertionSort (fun a b : RankRecord => a.rank ≤ b.rank) rows).take limit)

/-! ## Concrete data for the worked examples -/

/-- The end-to-end example of the spec: subject AA with pre-window values
100 and 110 and post-window value 200, one control BB constant at 90, around
the event 2025-07-25 with 14-day windows. -/
def exDb : List Point :=
  [⟨"AA", "m", "2025-07-20T00:00:00", 100⟩,
   ⟨"AA", "m", "2025-07-21T00:00:00", 110⟩,
   ⟨"AA", "m", "2025-07-26T00:00:00", 200⟩,
   ⟨"BB", "m", "2025-07-20T00:00:00", 90⟩,
   ⟨"BB", "m", "2025-07-21T00:00:00", 90⟩,
   ⟨"BB", "m", "2025-07-26T00:00:00", 90⟩]

/-- Contribution of one aligned row to the diff series, written from the spec
sentence: keep `subject - mean(present control values)` when the subject slot
(the first) is present and at least one control slot is present, drop the row
otherwise. Used to compare the code path `_period_stats` against the spec
wording. -/
def rowDiffSpec (vect : List (Option ℚ)) : Option ℚ :=
  match vect with
  | some b :: rest =>
    let present := rest.filterMap id
    if present = [] then none
    else some (b - present.sum / (present.length : ℚ))
  | _ => none

/-- Concrete `domain_rank` documents for the latest-day example: GB has
records on two days, IE on one. -/
def exRank : List RankRecord :=
  [⟨"GB", "2025-07-01", "example.org", 1, "c"⟩,
   ⟨"GB", "2025-07-03", "example.net", 1, "c"⟩,
   ⟨"IE", "2025-08-01", "example.com", 1, "c"⟩]

/-! ## Order properties of the string comparison -/

theorem lexLe_refl (l : List Char) : lexLe l l = true := by
  induction l with
  | nil => rfl
  | cons a as ih => simp [lexLe, ih]

theorem strLe_refl (s : String) : strLe s s = true := lexLe_refl s.data

theorem lexLe_total (a b : List Char) : lexLe a b = true ∨ lexLe b a = true := by
  induction a generalizing b with
  | nil => left; rfl
  | cons x xs ih =>
    cases b with
    | nil => right; rfl
    | cons y ys =>
      rcases Nat.lt_trichotomy x.toNat y.toNat with h | h | h
      · left; simp [lexLe, h]
      · rcases ih ys with h2 | h2
        · left; simp [lexLe, h, h2]
        · right; simp [lexLe, h.symm, h2]
      · right; simp [lexLe, h]

theorem lexLe_trans {a b c : List Char} (h1 : lexLe a b = true)
    (h2 : lexLe b c = true) : lexLe a c = true := by
  induction a generalizing b c with
  | nil => rfl
  | cons x xs ih =>
    cases b with
    | nil => simp [lexLe] at h1
    | cons y ys =>
      cases c with
      | nil => simp [lexLe] at h2
      | cons z zs =>
        simp only [lexLe] at h1 h2 ⊢
        by_cases hxy : x.toNat < y.toNat
        · by_cases hyz : y.toNat < z.toNat
          · simp [Nat.lt_trans hxy hyz]
          · simp only [hyz, if_false] at h2
            by_cases heq : y.toNat = z.toNat
            · simp [heq ▸ hxy]
            · simp [heq] at h2
        · simp only [hxy, if_false] at h1
          by_cases heq : x.toNat = y.toNat
          · simp only [heq, if_true] at h1
            by_cases hyz : y.toNat < z.toNat
            · simp [heq ▸ hyz]
            · simp only [hyz, if_false] at h2
              by_cases heq2 : y.toNat = z.toNat
              · simp only [heq2, if_true] at h2
                have hxz : x.toNat = z.toNat := heq.trans heq2
                simp [hxz, ih h1 h2]
              · simp [heq2] at h2
          · simp [heq] at h1

theorem lexLe_nil_right {a : List Char} (h : lexLe a [] = true) : a = [] := by
  cases a with
  | nil => rfl
  | cons x xs => simp [lexLe] at h

theorem strLe_empty_right {a : String} (h : strLe a "" = true) : a = "" := by
  have h2 := lexLe_nil_right (a := a.data) h
  cases a with
  | mk d => simpa using congrArg String.mk h2

/-! ## Upper-casing is idempotent -/

theorem toNat_upperChar (c : Char) :
    (upperChar c).toNat =
      if 97 ≤ c.toNat ∧ c.toNat ≤ 122 then c.toNat - 32 else c.toNat := by
  rw [upperChar]
  split_ifs with h
  · obtain ⟨h1, h2⟩ := h
    generalize hgen : c.toNat = n at h1 h2 ⊢
    interval_cases n <;> decide
  · rfl

theorem upperChar_idem (c : Char) : upperChar (upperChar c) = upperChar c := by
  by_cases h : 97 ≤ c.toNat ∧ c.toNat ≤ 122
  · have ht : (upperChar c).toNat = c.toNat - 32 := by
      rw [toNat_upperChar, if_pos h]
    have hno : ¬(97 ≤ (upperChar c).toNat ∧ (upperChar c).toNat ≤ 122) := by
      rw [ht]; omega
    conv_lhs => rw [upperChar]
    rw [if_neg hno]
  · have hc : upperChar c = c := by rw [upperChar, if_neg h]
    rw [hc, hc]

theorem strUpper_idem (s : String) : strUpper (strUpper s) = strUpper s := by
  rw [strUpper, strUpper]
  simp only [List.map_map]
  congr 1
  exact List.map_congr_left fun c _ => upperChar_idem c

/-! ## Unfolding lemmas for the engine -/

theorem computeWindowStats_some (db : List Point) (country metric event : String)
    (preDays postDays : Int) (controlsOpt : Option (List String))
    (preS preU postS postU : String)
    (hb : computeWindowBounds event preDays postDays =
      some (preS, preU, postS, postU)) :
    computeWindowStats db country metric event preDays postDays controlsOpt =
      some
        { country := strUpper country
          metric := metric
          event := event
          preDaysField := preDays
          postDaysField := postDays
          meanPre := listMean ((findSeries db country metric preS preU).map Point.value)
          meanPost := listMean ((findSeries db country metric postS postU).map Point.value)
          pctDeltaField :=
            pctDelta (listMean ((findSeries db country metric preS preU).map Point.value))
              (listMean ((findSeries db country metric postS postU).map Point.value))
          zScoreVsControls :=
            if controlsOpt.getD [] = [] then none
            else
              zScore
                (findSeries db country metric preS preU ::
                  (controlsOpt.getD []).map fun c => findSeries db c metric preS preU)
                (findSeries db country metric postS postU ::
                  (controlsOpt.getD []).map fun c => findSeries db c metric postS postU)
          controlsField := controlsOpt.getD []
          controlsDetail :=
            if controlsOpt.getD [] = [] then []
            else (controlsOpt.getD []).map fun c =>
              (c, (findSeries db c metric preS preU).length,
                  (findSeries db c metric postS postU).length) } := by
  rw [computeWindowStats.eq_def, hb]
  cases controlsOpt <;> rfl

theorem computeWindowStats_noneOfBounds (db : List Point)
    (country metric event : String) (preDays postDays : Int)
    (controlsOpt : Option (List String))
    (hb : computeWindowBounds event preDays postDays = none) :
    computeWindowStats db country metric event preDays postDays controlsOpt = none := by
  rw [computeWindowStats.eq_def, hb]

theorem pctDelta_whole (mp mo : Option ℚ) :
    (mp = none ∨ mp = some 0 ∨ mo = none → pctDelta mp mo = none) ∧
    (∀ a b, mp = some a → a ≠ 0 → mo = some b →
      pctDelta mp mo = some ((b - a) / a)) := by
  constructor
  · rintro (rfl | rfl | rfl)
    · rfl
    · cases mo with
      | none => rfl
      | some b => simp [pctDelta]
    · cases mp with
      | none => rfl
      | some a => rfl
  · rintro a b rfl ha rfl
    simp [pctDelta, ha]

theorem periodStats_eq (L : List (List Point)) :
    periodStats L =
      if periodDiffs L = [] then none
      else some ((periodDiffs L).sum / ((periodDiffs L).length : ℚ),
        popStd (periodDiffs L)) := rfl

theorem zScore_whole (preL postL : List (List Point)) :
    (periodDiffs preL = [] ∨ periodDiffs postL = [] ∨
        ¬ 0 < popStd (periodDiffs preL) → zScore preL postL = none) ∧
    (periodDiffs preL ≠ [] → periodDiffs postL ≠ [] →
      0 < popStd (periodDiffs preL) →
      zScore preL postL = some
        (((((periodDiffs postL).sum / ((periodDiffs postL).length : ℚ) : ℚ) : ℝ) -
          (((periodDiffs preL).sum / ((periodDiffs preL).length : ℚ) : ℚ) : ℝ)) /
          popStd (periodDiffs preL))) := by
  constructor
  · intro h
    rw [zScore.eq_def, periodStats_eq, periodStats_eq]
    by_cases h1 : periodDiffs preL = []
    · rw [if_pos h1]
    · by_cases h2 : periodDiffs postL = []
      · rw [if_pos h2, if_neg h1]
      · rcases h with h | h | h
        · exact absurd h h1
        · exact absurd h h2
        · rw [if_neg h1, if_neg h2]
          simp only []
          rw [if_neg h]
  · intro h1 h2 hstd
    rw [zScore.eq_def, periodStats_eq, periodStats_eq, if_neg h1, if_neg h2]
    simp only []
    rw [if_pos hstd]

theorem popVar_nonneg (l : List ℚ) : 0 ≤ popVar l := by
  rw [popVar]
  apply div_nonneg
  · apply List.sum_nonneg
    intro x hx
    simp only [List.mem_map] at hx
    obtain ⟨y, _, rfl⟩ := hx
    positivity
  · positivity

theorem popVar_const (l : List ℚ) (h : ∀ x ∈ l, ∀ y ∈ l, x = y) : popVar l = 0 := by
  cases l with
  | nil => simp [popVar]
  | cons a as =>
    have hall : ∀ x ∈ a :: as, x = a := fun x hx =>
      h x hx a (List.mem_cons_self a as)
    have hsum : (a :: as).sum = ((a :: as).length : ℚ) * a := by
      have hrep : (a :: as) = List.replicate (a :: as).length a :=
        List.eq_replicate_iff.mpr ⟨rfl, hall⟩
      rw [hrep]
      simp [List.sum_replicate, nsmul_eq_mul]
    rw [popVar]
    have hmean : (a :: as).sum / ((a :: as).length : ℚ) = a := by
      rw [hsum]
      have hne : ((a :: as).length : ℚ) ≠ 0 := by
        rw [List.length_cons]
        push_cast
        positivity
      field_simp
    rw [hmean]
    have hzero : ((a :: as).map fun x => (x - a) ^ 2).sum = 0 := by
      apply List.sum_eq_zero
      intro x hx
      simp only [List.mem_map] at hx
      obtain ⟨y, hy, rfl⟩ := hx
      rw [hall y hy]
      ring
    rw [hzero]
    simp

theorem popStd_pos_iff (l : List ℚ) : 0 < popStd l ↔ 0 < popVar l := by
  rw [popStd, Real.sqrt_pos]
  exact_mod_cast Iff.rfl

theorem alignByTs_keys (seriesList : List (List Point)) :
    (alignByTs seriesList).map Prod.fst =
      (List.insertionSort (fun a b : String => strLe a b = true)
        (seriesList.flatMap fun s => s.map Point.ts)).dedup := by
  simp [alignByTs, List.map_map, Function.comp_def]

theorem getLast?_all_eq {α : Type} (l : List α) (v : α) (hne : l ≠ [])
    (h : ∀ x ∈ l, x = v) : l.getLast? = some v := by
  induction l with
  | nil => exact absurd rfl hne
  | cons a as ih =>
    cases as with
    | nil =>
      rw [h a (List.mem_cons_self a [])]
      rfl
    | cons b bs =>
      rw [List.getLast?_cons_cons]
      exact ih (List.cons_ne_nil b bs)
        fun x hx => h x (List.mem_cons_of_mem _ hx)

theorem fetch_case_insensitive (db : List Point) (metric s u : String) :
    ∀ c1 c2, strUpper c1 = strUpper c2 →
      findSeries db c1 metric s u = findSeries db c2 metric s u := by
  intro c1 c2 h
  rw [findSeries, findSeries, h]

theorem fetch_map_congr (db : List Point) (metric s u : String) :
    ∀ cs1 cs2 : List String, cs1.map strUpper = cs2.map strUpper →
      cs1.map (fun c => findSeries db c metric s u) =
      cs2.map (fun c => findSeries db c metric s u) := by
  intro cs1
  induction cs1 with
  | nil =>
    intro cs2 h
    cases cs2 with
    | nil => rfl
    | cons b bs => simp at h
  | cons a as ih =>
    intro cs2 h
    cases cs2 with
    | nil => simp at h
    | cons b bs =>
      simp only [List.map_cons, List.cons.injEq] at h
      simp only [List.map_cons, List.cons.injEq]
      exact ⟨fetch_case_insensitive db metric s u a b h.1, ih bs h.2⟩

theorem counts_map_congr (db : List Point) (metric preS preU postS postU : String) :
    ∀ cs1 cs2 : List String, cs1.map strUpper = cs2.map strUpper →
      cs1.map (fun c => ((findSeries db c metric preS preU).length,
        (findSeries db c metric postS postU).length)) =
      cs2.map (fun c => ((findSeries db c metric preS preU).length,
        (findSeries db c metric postS postU).length)) := by
  intro cs1
  induction cs1 with
  | nil =>
    intro cs2 h
    cases cs2 with
    | nil => rfl
    | cons b bs => simp at h
  | cons a as ih =>
    intro cs2 h
    cases cs2 with
    | nil => simp at h
    | cons b bs =>
      simp only [List.map_cons, List.cons.injEq] at h
      simp only [List.map_cons, List.cons.injEq]
      refine ⟨?_, ih bs h.2⟩
      rw [fetch_case_insensitive db metric preS preU a b h.1,
        fetch_case_insensitive db metric postS postU a b h.1]

theorem latestDateForCountry_upper (db : List RankRecord) (country : String) :
    latestDateForCountry db (strUpper country) = latestDateForCountry db country := by
  rw [latestDateForCountry, latestDateForCountry, strUpper_idem]

theorem seriesDict_absent (s : List Point) (ts : String)
    (h : ∀ p ∈ s, p.ts ≠ ts) : seriesDict s ts = none := by
  rw [seriesDict]
  have hf : s.filter (fun p => p.ts == ts) = [] := by
    rw [List.filter_eq_nil_iff]
    intro p hp
    simp [h p hp]
  rw [hf]
  rfl

theorem seriesDict_present (s : List Point) (ts : String) (p : Point)
    (hp : p ∈ s) (hpts : p.ts = ts)
    (huniq : ∀ q ∈ s, q.ts = ts → q.value = p.value) :
    seriesDict s ts = some p.value := by
  rw [seriesDict]
  apply getLast?_all_eq
  · intro hemp
    have hmem : p ∈ s.filter (fun q => q.ts == ts) :=
      List.mem_filter.2 ⟨hp, by simp [hpts]⟩
    have hv : p.value ∈ (s.filter (fun q => q.ts == ts)).map Point.value :=
      List.mem_map_of_mem _ hmem
    rw [hemp] at hv
    exact absurd hv (List.not_mem_nil _)
  · intro x hx
    simp only [List.mem_map] at hx
    obtain ⟨q, hq, rfl⟩ := hx
    have hqf := List.mem_filter.1 hq
    exact huniq q hqf.1 (by simpa using hqf.2)

/-! ## Claim theorems -/

/-- C1: for every event string that parses as a valid date and every pre/post
day count whose derived instants stay inside the representable datetime range,
`compute_window_stats` derives the query windows exactly as pre-window
`[event - pre_days days, event - 1 second]` and post-window
`[event, event + post_days days]` (stated on the seconds model and rendered
back to ISO); in particular event 2025-07-25 with 14-day windows yields the
four boundary strings of the spec. -/
theorem C1_window_derivation :
    (∀ (event : String) (y m d : Nat) (preDays postDays : Int),
      fromisoformatDate event = some (y, m, d) →
      0 ≤ dateSecs y m d - preDays * 86400 →
      dateSecs y m d - preDays * 86400 ≤ maxSecs →
      0 ≤ dateSecs y m d - 1 → dateSecs y m d - 1 ≤ maxSecs →
      0 ≤ dateSecs y m d + postDays * 86400 →
      dateSecs y m d + postDays * 86400 ≤ maxSecs →
      computeWindowBounds event preDays postDays =
        some (renderDateTime (dateSecs y m d - preDays * 86400).toNat,
              renderDateTime (dateSecs y m d - 1).toNat,
              renderDateTime (dateSecs y m d).toNat,
              renderDateTime (dateSecs y m d + postDays * 86400).toNat)) ∧
    computeWindowBounds "2025-07-25" 14 14 =
      some ("2025-07-11T00:00:00", "2025-07-24T23:59:59",
            "2025-07-25T00:00:00", "2025-08-08T00:00:00") := by
  constructor
  · intro event y m d preDays postDays hp h1 h2 h3 h4 h5 h6
    rw [computeWindowBounds.eq_def, hp]
    show (if 0 ≤ dateSecs y m d - preDays * 86400 ∧
        dateSecs y m d - preDays * 86400 ≤ maxSecs ∧
        0 ≤ dateSecs y m d - 1 ∧ dateSecs y m d - 1 ≤ maxSecs ∧
        0 ≤ dateSecs y m d + postDays * 86400 ∧
        dateSecs y m d + postDays * 86400 ≤ maxSecs then
        some (renderDateTime (dateSecs y m d - preDays * 86400).toNat,
              renderDateTime (dateSecs y m d - 1).toNat,
              renderDateTime (dateSecs y m d).toNat,
              renderDateTime (dateSecs y m d + postDays * 86400).toNat)
      else none) = _
    rw [if_pos ⟨h1, h2, h3, h4, h5, h6⟩]
  · decide

/-- C1 witness: the general window derivation applied to the concrete event
2025-07-25 with 14-day windows. -/
theorem C1_window_derivation_witness :
    computeWindowBounds "2025-07-25" 14 14 =
      some (renderDateTime (dateSecs 2025 7 25 - 14 * 86400).toNat,
            renderDateTime (dateSecs 2025 7 25 - 1).toNat,
            renderDateTime (dateSecs 2025 7 25).toNat,
            renderDateTime (dateSecs 2025 7 25 + 14 * 86400).toNat) :=
  C1_window_derivation.1 "2025-07-25" 2025 7 25 14 14 (by decide) (by decide)
    (by decide) (by decide) (by decide) (by decide) (by decide)

/-- C2: `compute_window_stats` never raises past window derivation (a report
exists whenever the window bounds exist), and its `pct_delta` equals
`(mean_post - mean_pre) / mean_pre` exactly when `mean_pre` is defined and
non-zero and `mean_post` is defined, and is `None` otherwise; an empty
pre-window fetch forces `mean_pre = None` and `pct_delta = None`. -/
theorem C2_pct_delta_guards (db : List Point) (country metric event : String)
    (preDays postDays : Int) (controlsOpt : Option (List String)) :
    ((computeWindowStats db country metric event preDays postDays controlsOpt).isSome ↔
      (computeWindowBounds event preDays postDays).isSome) ∧
    (∀ r, computeWindowStats db country metric event preDays postDays controlsOpt =
        some r →
      (r.meanPre = none ∨ r.meanPre = some 0 ∨ r.meanPost = none →
        r.pctDeltaField = none) ∧
      (∀ a b, r.meanPre = some a → a ≠ 0 → r.meanPost = some b →
        r.pctDeltaField = some ((b - a) / a)) ∧
      (∀ preS preU postS postU,
        computeWindowBounds event preDays postDays = some (preS, preU, postS, postU) →
        findSeries db country metric preS preU = [] →
        r.meanPre = none ∧ r.pctDeltaField = none)) := by
  constructor
  · cases hb : computeWindowBounds event preDays postDays with
    | none =>
      rw [computeWindowStats_noneOfBounds db country metric event preDays postDays
        controlsOpt hb]
      simp
    | some bnds =>
      obtain ⟨preS, preU, postS, postU⟩ := bnds
      rw [computeWindowStats_some db country metric event preDays postDays controlsOpt
        preS preU postS postU hb]
      simp
  · intro r h
    cases hb : computeWindowBounds event preDays postDays with
    | none =>
      rw [computeWindowStats_noneOfBounds db country metric event preDays postDays
        controlsOpt hb] at h
      cases h
    | some bnds =>
      obtain ⟨preS, preU, postS, postU⟩ := bnds
      rw [computeWindowStats_some db country metric event preDays postDays controlsOpt
        preS preU postS postU hb] at h
      obtain rfl := (Option.some.inj h).symm
      refine ⟨(pctDelta_whole _ _).1, (pctDelta_whole _ _).2, ?_⟩
      intro pS pU oS oU hb2 hempty
      simp only [Option.some.injEq, Prod.mk.injEq] at hb2
      obtain ⟨rfl, rfl, rfl, rfl⟩ := hb2
      rw [hempty]
      constructor <;> rfl

/-- C2 witness: on an empty store the report exists and its `pct_delta`
degrades to `None` through the `mean_pre = None` guard. -/
theorem C2_pct_delta_guards_witness :
    computeWindowStats [] "GB" "m" "2025-07-25" 14 14 none =
      some { country := "GB", metric := "m", event := "2025-07-25",
             preDaysField := 14, postDaysField := 14, meanPre := none,
             meanPost := none, pctDeltaField := none, zScoreVsControls := none,
             controlsField := [], controlsDetail := [] } ∧
    WindowStatsReport.pctDeltaField
      { country := "GB", metric := "m", event := "2025-07-25",
        preDaysField := 14, postDaysField := 14, meanPre := none,
        meanPost := none, pctDeltaField := none, zScoreVsControls := none,
        controlsField := [], controlsDetail := [] } = none :=
  ⟨rfl, ((C2_pct_delta_guards [] "GB" "m" "2025-07-25" 14 14 none).2 _ rfl).1
    (Or.inl rfl)⟩

/-- C4: the diff series built by `_period_stats` is exactly the row-wise
filter-map of the aligned frame under the spec rule: a row contributes
`subject - mean(present controls)` when the subject slot is present and at
least one control slot is present; rows without the subject value or with all
control slots missing are dropped, and a missing control slot neither enters
the sum nor the denominator (it is never read as zero). -/
theorem C4_diff_row_selection (seriesList : List (List Point)) :
    periodDiffs seriesList =
      (alignByTs seriesList).filterMap (fun row => rowDiffSpec row.2) ∧
    rowDiffSpec [] = none ∧
    (∀ rest, rowDiffSpec (none :: rest) = none) ∧
    (∀ b rest, rowDiffSpec (some b :: none :: rest) = rowDiffSpec (some b :: rest)) ∧
    (∀ b rest, rest.filterMap id = [] → rowDiffSpec (some b :: rest) = none) ∧
    (∀ b rest, rest.filterMap id ≠ [] → rowDiffSpec (some b :: rest) =
      some (b - (rest.filterMap id).sum / ((rest.filterMap id).length : ℚ))) := by
  refine ⟨?_, rfl, fun rest => rfl, fun b rest => rfl, ?_, ?_⟩
  · rw [periodDiffs]
    congr 1
    funext row
    obtain ⟨ts, v⟩ := row
    cases v with
    | nil => rfl
    | cons o rest =>
      cases o with
      | none => rfl
      | some b => rfl
  · intro b rest hemp
    rw [rowDiffSpec]
    simp only [hemp]
    rfl
  · intro b rest hne
    rw [rowDiffSpec]
    simp only [if_neg hne]

/-- C4 witness: a subject value with one missing control is dropped, and a
missing slot next to a present control leaves the diff unchanged. -/
theorem C4_diff_row_selection_witness :
    rowDiffSpec (some 1 :: [none]) = none ∧
    rowDiffSpec (some 1 :: [none, some 3]) = rowDiffSpec (some 1 :: [some 3]) :=
  ⟨(C4_diff_row_selection []).2.2.2.2.1 1 [none] rfl,
   (C4_diff_row_selection []).2.2.2.1 1 [some 3]⟩

/-- C7: the aligned frame has exactly one row per distinct timestamp occurring
in any input series (its keys are distinct, sorted, and a timestamp is a key
iff some input series has a point at it), every row vector has one slot per
input series holding that series value at that exact timestamp (`none` when
the series has no point there), and all-empty inputs produce the empty frame. -/
theorem C7_aligner_invariants (seriesList : List (List Point)) :
    ((alignByTs seriesList).map Prod.fst).Nodup ∧
    List.Sorted (fun a b : String => strLe a b = true)
      ((alignByTs seriesList).map Prod.fst) ∧
    (∀ ts : String, ts ∈ (alignByTs seriesList).map Prod.fst ↔
      ∃ s ∈ seriesList, ∃ p ∈ s, p.ts = ts) ∧
    (∀ row ∈ alignByTs seriesList, row.2.length = seriesList.length) ∧
    (∀ ts vect, (ts, vect) ∈ alignByTs seriesList →
      vect = seriesList.map fun s => seriesDict s ts) ∧
    (∀ s ts, (∀ p ∈ s, p.ts ≠ ts) → seriesDict s ts = none) ∧
    (∀ s ts (p : Point), p ∈ s → p.ts = ts →
      (∀ q ∈ s, q.ts = ts → q.value = p.value) → seriesDict s ts = some p.value) ∧
    ((∀ s ∈ seriesList, s = []) → alignByTs seriesList = []) := by
  haveI hTot : IsTotal String (fun a b : String => strLe a b = true) :=
    ⟨fun a b => lexLe_total a.data b.data⟩
  haveI hTrans : IsTrans String (fun a b : String => strLe a b = true) :=
    ⟨fun _ _ _ h1 h2 => lexLe_trans h1 h2⟩
  refine ⟨?_, ?_, ?_, ?_, ?_, seriesDict_absent, seriesDict_present, ?_⟩
  · rw [alignByTs_keys]; exact List.nodup_dedup _
  · rw [alignByTs_keys]
    exact (List.sorted_insertionSort _ _).sublist (List.dedup_sublist _)
  · intro ts
    rw [alignByTs_keys]
    simp only [List.mem_dedup, List.mem_insertionSort, List.mem_flatMap, List.mem_map]
  · intro row hrow
    simp only [alignByTs, List.mem_map] at hrow
    obtain ⟨ts, _, rfl⟩ := hrow
    simp
  · intro ts vect h
    simp only [alignByTs, List.mem_map] at h
    obtain ⟨ts2, _, heq⟩ := h
    cases heq
    rfl
  · intro hall
    have hfm : ∀ L : List (List Point), (∀ s ∈ L, s = []) →
        (L.flatMap fun s => s.map Point.ts) = [] := by
      intro L
      induction L with
      | nil => intro _; rfl
      | cons s ss ih =>
        intro hL
        rw [List.flatMap_cons, hL s (List.mem_cons_self s ss)]
        simp only [List.map_nil, List.nil_append]
        exact ih fun t ht => hL t (List.mem_cons_of_mem _ ht)
    rw [alignByTs, hfm seriesList hall]
    rfl

/-- C7 witness: the empty-inputs case and both slot-lookup cases at concrete
points. -/
theorem C7_aligner_invariants_witness :
    alignByTs [([] : List Point), []] = [] ∧
    seriesDict [⟨"AA", "m", "t1", 5⟩] "t2" = none ∧
    seriesDict [⟨"AA", "m", "t1", 5⟩] "t1" = some 5 :=
  ⟨(C7_aligner_invariants [[], []]).2.2.2.2.2.2.2 (by simp),
   (C7_aligner_invariants []).2.2.2.2.2.1 [⟨"AA", "m", "t1", 5⟩] "t2" (by decide),
   (C7_aligner_invariants []).2.2.2.2.2.2.1 [⟨"AA", "m", "t1", 5⟩] "t1"
     ⟨"AA", "m", "t1", 5⟩ (List.mem_cons_self _ _) rfl
     (fun q hq _ => by
       rcases List.mem_cons.1 hq with h | h
       · rw [h]
       · exact absurd h (List.not_mem_nil q))⟩

/-- C3: the z-score of `compute_window_stats` is `None` whenever controls are
absent or empty (and `controls_detail` is then the empty mapping), whenever
either window's diff series is empty after alignment and row-dropping, and
whenever the pre-window diff standard deviation is not strictly positive (in
particular when all pre-window diffs are identical); otherwise it equals
`(post_diff_mean - pre_diff_mean) / pre_diff_std`. -/
theorem C3_z_score_guards (db : List Point) (country metric event : String)
    (preDays postDays : Int) (controlsOpt : Option (List String))
    (r : WindowStatsReport)
    (h : computeWindowStats db country metric event preDays postDays controlsOpt =
      some r) :
    (controlsOpt = none ∨ controlsOpt = some [] →
      r.zScoreVsControls = none ∧ r.controlsDetail = []) ∧
    (∀ preS preU postS postU cs,
      computeWindowBounds event preDays postDays = some (preS, preU, postS, postU) →
      controlsOpt = some cs → cs ≠ [] →
      ((periodDiffs (findSeries db country metric preS preU ::
          cs.map fun c => findSeries db c metric preS preU) = [] ∨
        periodDiffs (findSeries db country metric postS postU ::
          cs.map fun c => findSeries db c metric postS postU) = [] ∨
        ¬ 0 < popStd (periodDiffs (findSeries db country metric preS preU ::
          cs.map fun c => findSeries db c metric preS preU))) →
        r.zScoreVsControls = none) ∧
      ((∀ x ∈ periodDiffs (findSeries db country metric preS preU ::
          cs.map fun c => findSeries db c metric preS preU),
        ∀ y ∈ periodDiffs (findSeries db country metric preS preU ::
          cs.map fun c => findSeries db c metric preS preU), x = y) →
        r.zScoreVsControls = none) ∧
      (periodDiffs (findSeries db country metric preS preU ::
          cs.map fun c => findSeries db c metric preS preU) ≠ [] →
       periodDiffs (findSeries db country metric postS postU ::
          cs.map fun c => findSeries db c metric postS postU) ≠ [] →
       0 < popStd (periodDiffs (findSeries db country metric preS preU ::
          cs.map fun c => findSeries db c metric preS preU)) →
       r.zScoreVsControls = some
         (((((periodDiffs (findSeries db country metric postS postU ::
              cs.map fun c => findSeries db c metric postS postU)).sum /
            ((periodDiffs (findSeries db country metric postS postU ::
              cs.map fun c => findSeries db c metric postS postU)).length : ℚ) : ℚ) : ℝ) -
          (((periodDiffs (findSeries db country metric preS preU ::
              cs.map fun c => findSeries db c metric preS preU)).sum /
            ((periodDiffs (findSeries db country metric preS preU ::
              cs.map fun c => findSeries db c metric preS preU)).length : ℚ) : ℚ) : ℝ)) /
          popStd (periodDiffs (findSeries db country metric preS preU ::
            cs.map fun c => findSeries db c metric preS preU))))) := by
  cases hb : computeWindowBounds event preDays postDays with
  | none =>
    rw [computeWindowStats_noneOfBounds db country metric event preDays postDays
      controlsOpt hb] at h
    cases h
  | some bnds =>
    obtain ⟨preS, preU, postS, postU⟩ := bnds
    rw [computeWindowStats_some db country metric event preDays postDays controlsOpt
      preS preU postS postU hb] at h
    obtain rfl := (Option.some.inj h).symm
    constructor
    · rintro (rfl | rfl) <;> exact ⟨rfl, rfl⟩
    · intro pS pU oS oU cs hb2 hcs hne
      simp only [Option.some.injEq, Prod.mk.injEq] at hb2
      obtain ⟨rfl, rfl, rfl, rfl⟩ := hb2
      subst hcs
      have hz : WindowStatsReport.zScoreVsControls
          { country := strUpper country
            metric := metric
            event := event
            preDaysField := preDays
            postDaysField := postDays
            meanPre := listMean ((findSeries db country metric preS preU).map Point.value)
            meanPost := listMean ((findSeries db country metric postS postU).map Point.value)
            pctDeltaField :=
              pctDelta (listMean ((findSeries db country metric preS preU).map Point.value))
                (listMean ((findSeries db country metric postS postU).map Point.value))
            zScoreVsControls :=
              if ((some cs : Option (List String)).getD []) = [] then none
              else
                zScore
                  (findSeries db country metric preS preU ::
                    ((some cs : Option (List String)).getD []).map fun c =>
                      findSeries db c metric preS preU)
                  (findSeries db country metric postS postU ::
                    ((some cs : Option (List String)).getD []).map fun c =>
                      findSeries db c metric postS postU)
            controlsField := (some cs : Option (List String)).getD []
            controlsDetail :=
              if ((some cs : Option (List String)).getD []) = [] then []
              else ((some cs : Option (List String)).getD []).map fun c =>
                (c, (findSeries db c metric preS preU).length,
                    (findSeries db c metric postS postU).length) } =
          zScore
            (findSeries db country metric preS preU ::
              cs.map fun c => findSeries db c metric preS preU)
            (findSeries db country metric postS postU ::
              cs.map fun c => findSeries db c metric postS postU) := by
        show (if cs = [] then none else _) = _
        rw [if_neg hne]
        rfl
      rw [hz]
      refine ⟨(zScore_whole _ _).1, ?_, (zScore_whole _ _).2⟩
      intro hconst
      apply (zScore_whole _ _).1
      by_cases hd : periodDiffs (findSeries db country metric preS preU ::
          cs.map fun c => findSeries db c metric preS preU) = []
      · exact Or.inl hd
      · refine Or.inr (Or.inr ?_)
        rw [popStd_pos_iff, popVar_const _ hconst]
        simp

/-- C3 witness: with no controls requested the z-score is `None` and the
controls detail is empty. -/
theorem C3_z_score_guards_witness :
    WindowStatsReport.zScoreVsControls
      { country := "GB", metric := "m", event := "2025-07-25",
        preDaysField := 14, postDaysField := 14, meanPre := none,
        meanPost := none, pctDeltaField := none, zScoreVsControls := none,
        controlsField := [], controlsDetail := [] } = none ∧
    WindowStatsReport.controlsDetail
      { country := "GB", metric := "m", event := "2025-07-25",
        preDaysField := 14, postDaysField := 14, meanPre := none,
        meanPost := none, pctDeltaField := none, zScoreVsControls := none,
        controlsField := [], controlsDetail := [] } = [] :=
  (C3_z_score_guards [] "GB" "m" "2025-07-25" 14 14 none _ rfl).1 (Or.inl rfl)

/-- C6: the diff statistics use the population standard deviation: on the
spec example (subject pre 100/110, control pre 90/90, subject post 200,
control post 90 around event 2025-07-25) the pre diffs are [10, 20] with mean
15 and population standard deviation 5 (the sample deviation would be
`sqrt 50`), the post diff is [110] with mean 110, and the full report carries
`z_score = (110 - 15) / 5 = 19`. -/
theorem C6_population_std_example :
    periodDiffs [findSeries exDb "AA" "m" "2025-07-11T00:00:00" "2025-07-24T23:59:59",
      findSeries exDb "BB" "m" "2025-07-11T00:00:00" "2025-07-24T23:59:59"] = [10, 20] ∧
    periodStats [findSeries exDb "AA" "m" "2025-07-11T00:00:00" "2025-07-24T23:59:59",
      findSeries exDb "BB" "m" "2025-07-11T00:00:00" "2025-07-24T23:59:59"] =
      some (15, 5) ∧
    periodDiffs [findSeries exDb "AA" "m" "2025-07-25T00:00:00" "2025-08-08T00:00:00",
      findSeries exDb "BB" "m" "2025-07-25T00:00:00" "2025-08-08T00:00:00"] = [110] ∧
    periodStats [findSeries exDb "AA" "m" "2025-07-25T00:00:00" "2025-08-08T00:00:00",
      findSeries exDb "BB" "m" "2025-07-25T00:00:00" "2025-08-08T00:00:00"] =
      some (110, 0) ∧
    popVar [10, 20] = 25 ∧
    popStd [(10 : ℚ), 20] = 5 ∧
    popStd [(10 : ℚ), 20] ≠ Real.sqrt 50 ∧
    computeWindowStats exDb "AA" "m" "2025-07-25" 14 14 (some ["BB"]) =
      some { country := "AA", metric := "m", event := "2025-07-25",
             preDaysField := 14, postDaysField := 14,
             meanPre := some 105, meanPost := some 200,
             pctDeltaField := some (19 / 21), zScoreVsControls := some 19,
             controlsField := ["BB"], controlsDetail := [("BB", 2, 1)] } := by
  have hDpre : periodDiffs
      [findSeries exDb "AA" "m" "2025-07-11T00:00:00" "2025-07-24T23:59:59",
       findSeries exDb "BB" "m" "2025-07-11T00:00:00" "2025-07-24T23:59:59"] =
      [10, 20] := by
    have hAlign : alignByTs
        [findSeries exDb "AA" "m" "2025-07-11T00:00:00" "2025-07-24T23:59:59",
         findSeries exDb "BB" "m" "2025-07-11T00:00:00" "2025-07-24T23:59:59"] =
        [("2025-07-20T00:00:00", [some 100, some 90]),
         ("2025-07-21T00:00:00", [some 110, some 90])] := rfl
    simp only [periodDiffs, hAlign, List.filterMap_cons, List.filterMap_nil,
      List.head?_cons, List.drop_succ_cons, List.drop_zero]
    norm_num
  have hVar : popVar [10, 20] = 25 := by norm_num [popVar]
  have hStd : popStd [(10 : ℚ), 20] = 5 := by
    rw [popStd, hVar, show ((25 : ℚ) : ℝ) = 5 ^ 2 by norm_num]
    exact Real.sqrt_sq (by norm_num)
  have hpre : periodStats
      [findSeries exDb "AA" "m" "2025-07-11T00:00:00" "2025-07-24T23:59:59",
       findSeries exDb "BB" "m" "2025-07-11T00:00:00" "2025-07-24T23:59:59"] =
      some (15, 5) := by
    rw [periodStats_eq, hDpre, if_neg (by simp : ¬((10 : ℚ) :: [20] = []))]
    norm_num [hStd]
  have hDpost : periodDiffs
      [findSeries exDb "AA" "m" "2025-07-25T00:00:00" "2025-08-08T00:00:00",
       findSeries exDb "BB" "m" "2025-07-25T00:00:00" "2025-08-08T00:00:00"] =
      [110] := by
    have hAlign : alignByTs
        [findSeries exDb "AA" "m" "2025-07-25T00:00:00" "2025-08-08T00:00:00",
         findSeries exDb "BB" "m" "2025-07-25T00:00:00" "2025-08-08T00:00:00"] =
        [("2025-07-26T00:00:00", [some 200, some 90])] := rfl
    simp only [periodDiffs, hAlign, List.filterMap_cons, List.filterMap_nil,
      List.head?_cons, List.drop_succ_cons, List.drop_zero]
    norm_num
  have hVarPost : popVar [110] = 0 := by norm_num [popVar]
  have hStdPost : popStd [(110 : ℚ)] = 0 := by rw [popStd, hVarPost]; norm_num
  have hpost : periodStats
      [findSeries exDb "AA" "m" "2025-07-25T00:00:00" "2025-08-08T00:00:00",
       findSeries exDb "BB" "m" "2025-07-25T00:00:00" "2025-08-08T00:00:00"] =
      some (110, 0) := by
    rw [periodStats_eq, hDpost, if_neg (by simp : ¬((110 : ℚ) :: [] = []))]
    norm_num [hStdPost]
  have hSample : popStd [(10 : ℚ), 20] ≠ Real.sqrt 50 := by
    rw [hStd]
    intro hcontra
    have h50 := Real.sq_sqrt (by norm_num : (0 : ℝ) ≤ 50)
    rw [← hcontra] at h50
    norm_num at h50
  have hz : zScore
      [findSeries exDb "AA" "m" "2025-07-11T00:00:00" "2025-07-24T23:59:59",
       findSeries exDb "BB" "m" "2025-07-11T00:00:00" "2025-07-24T23:59:59"]
      [findSeries exDb "AA" "m" "2025-07-25T00:00:00" "2025-08-08T00:00:00",
       findSeries exDb "BB" "m" "2025-07-25T00:00:00" "2025-08-08T00:00:00"] =
      some 19 := by
    simp only [zScore, hpre, hpost]
    rw [if_pos (by norm_num : (0 : ℝ) < 5)]
    norm_num
  have hcompute : computeWindowStats exDb "AA" "m" "2025-07-25" 14 14 (some ["BB"]) =
      some { country := "AA", metric := "m", event := "2025-07-25",
             preDaysField := 14, postDaysField := 14,
             meanPre := some 105, meanPost := some 200,
             pctDeltaField := some (19 / 21), zScoreVsControls := some 19,
             controlsField := ["BB"], controlsDetail := [("BB", 2, 1)] } := by
    have hb : computeWindowBounds "2025-07-25" 14 14 =
        some ("2025-07-11T00:00:00", "2025-07-24T23:59:59",
              "2025-07-25T00:00:00", "2025-08-08T00:00:00") := by decide
    have hm1 : listMean ((findSeries exDb "AA" "m" "2025-07-11T00:00:00"
        "2025-07-24T23:59:59").map Point.value) = some 105 := by
      rw [show (findSeries exDb "AA" "m" "2025-07-11T00:00:00"
        "2025-07-24T23:59:59").map Point.value = [100, 110] from rfl]
      rw [listMean, if_neg (by simp : ¬((100 : ℚ) :: [110] = []))]
      norm_num
    have hm2 : listMean ((findSeries exDb "AA" "m" "2025-07-25T00:00:00"
        "2025-08-08T00:00:00").map Point.value) = some 200 := by
      rw [show (findSeries exDb "AA" "m" "2025-07-25T00:00:00"
        "2025-08-08T00:00:00").map Point.value = [200] from rfl]
      rw [listMean, if_neg (by simp : ¬((200 : ℚ) :: [] = []))]
      norm_num
    rw [computeWindowStats.eq_def, hb]
    simp only [hm1, hm2, List.map_cons, List.map_nil, hz]
    rw [pctDelta, if_neg (by norm_num : ¬(105 : ℚ) = 0)]
    norm_num
    exact ⟨by decide, rfl, rfl⟩
  exact ⟨hDpre, hpre, hDpost, hpost, hVar, hStd, hSample, hcompute⟩

/-- C5 counterexample: a request with a non-positive `pre` and the subject
entity listed in its own controls is processed and answered with a full
report, not rejected as a client-side error. -/
theorem C5_request_validation_counterexample :
    windowStatsHandler [] (some "2025-07-25") "GB" "m" (-5) 14 ["GB"] =
      ApiResponse.ok
        { country := "GB", metric := "m", event := "2025-07-25",
          preDaysField := -5, postDaysField := 14,
          meanPre := none, meanPost := none, pctDeltaField := none,
          zScoreVsControls := none,
          controlsField := ["GB"], controlsDetail := [("GB", 0, 0)] } := rfl

/-- C5 (amended): only a missing or empty `event` is rejected before any fetch
as a client-side 400 error; a malformed (or out-of-range) event date aborts
before any fetch with an unhandled exception surfacing as a server error, not
a client error; and a non-positive `pre`/`post` or the subject entity listed
in its own controls are accepted and processed normally, never rejected. -/
theorem C5_request_validation :
    (∀ (db : List Point) countryArg metric (preDays postDays : Int) controlsArg,
      windowStatsHandler db none countryArg metric preDays postDays controlsArg =
        ApiResponse.clientError 400 "missing event (YYYY-MM-DD)") ∧
    (∀ (db : List Point) countryArg metric (preDays postDays : Int) controlsArg,
      windowStatsHandler db (some "") countryArg metric preDays postDays controlsArg =
        ApiResponse.clientError 400 "missing event (YYYY-MM-DD)") ∧
    (∀ (db : List Point) countryArg metric (preDays postDays : Int) controlsArg event,
      event ≠ "" →
      computeWindowBounds event preDays postDays = none →
      windowStatsHandler db (some event) countryArg metric preDays postDays
        controlsArg = ApiResponse.serverError ∧
      fetchTrace (strUpper countryArg) metric event preDays postDays
        (if controlsArg.map strUpper = [] then none
         else some (controlsArg.map strUpper)) = []) ∧
    (windowStatsHandler [] (some "2025-07-25") "GB" "m" (-5) 14 [] =
      ApiResponse.ok
        { country := "GB", metric := "m", event := "2025-07-25",
          preDaysField := -5, postDaysField := 14,
          meanPre := none, meanPost := none, pctDeltaField := none,
          zScoreVsControls := none, controlsField := [], controlsDetail := [] }) ∧
    (windowStatsHandler [] (some "2025-07-25") "gb" "m" 14 14 ["GB"] =
      ApiResponse.ok
        { country := "GB", metric := "m", event := "2025-07-25",
          preDaysField := 14, postDaysField := 14,
          meanPre := none, meanPost := none, pctDeltaField := none,
          zScoreVsControls := none,
          controlsField := ["GB"], controlsDetail := [("GB", 0, 0)] }) := by
  refine ⟨fun db c m p q l => rfl, fun db c m p q l => rfl, ?_, rfl, rfl⟩
  intro db countryArg metric preDays postDays controlsArg event hne hb
  constructor
  · rw [windowStatsHandler.eq_def]
    simp only [if_neg hne]
    rw [computeWindowStats_noneOfBounds _ _ _ _ _ _ _ hb]
  · rw [fetchTrace.eq_def, hb]

/-- C5 witness: the missing-event rejection and the malformed-event server
failure, each at a concrete request. -/
theorem C5_request_validation_witness :
    windowStatsHandler [] none "GB" "m" 14 14 [] =
      ApiResponse.clientError 400 "missing event (YYYY-MM-DD)" ∧
    (windowStatsHandler [] (some "not-a-date") "GB" "m" 14 14 [] =
      ApiResponse.serverError ∧
    fetchTrace (strUpper "GB") "m" "not-a-date" 14 14
      (if ([] : List String).map strUpper = []
       then none else some (([] : List String).map strUpper)) = []) :=
  ⟨C5_request_validation.1 [] "GB" "m" 14 14 [],
   C5_request_validation.2.2.1 [] "GB" "m" 14 14 [] "not-a-date"
     (by decide) (by decide)⟩

/-- C8 counterexample: with one control the fetch trace has six entries, more
than the bound of 2 + 2n fetches the claim allows. -/
theorem C8_fetch_count_counterexample :
    (fetchTrace "GB" "m" "2025-07-25" 14 14 (some ["IE"])).length = 6 ∧
    ¬ (fetchTrace "GB" "m" "2025-07-25" 14 14 (some ["IE"])).length ≤ 2 + 2 * 1 := by
  decide

/-- C8 (amended): a compute call performs no fetch when the window derivation
fails, exactly the two subject fetches (pre- and post-window separately) when
no controls are requested, and 2 + 4n fetches with n controls: the two subject
fetches first, then 2n control fetches for the z-score and 2n further control
re-fetches for `controls_detail`. -/
theorem C8_fetch_count (country metric event : String) (preDays postDays : Int)
    (controlsOpt : Option (List String)) :
    (computeWindowBounds event preDays postDays = none →
      fetchTrace country metric event preDays postDays controlsOpt = []) ∧
    (∀ preS preU postS postU,
      computeWindowBounds event preDays postDays = some (preS, preU, postS, postU) →
      (controlsOpt.getD [] = [] →
        fetchTrace country metric event preDays postDays controlsOpt =
          [⟨country, metric, preS, preU⟩, ⟨country, metric, postS, postU⟩]) ∧
      (controlsOpt.getD [] ≠ [] →
        (fetchTrace country metric event preDays postDays controlsOpt).length =
          2 + 4 * (controlsOpt.getD []).length ∧
        (fetchTrace country metric event preDays postDays controlsOpt).take 2 =
          [⟨country, metric, preS, preU⟩, ⟨country, metric, postS, postU⟩])) := by
  constructor
  · intro hb
    rw [fetchTrace.eq_def, hb]
  · intro preS preU postS postU hb
    have hft : fetchTrace country metric event preDays postDays controlsOpt =
        [⟨country, metric, preS, preU⟩, ⟨country, metric, postS, postU⟩] ++
          (if controlsOpt.getD [] = [] then []
           else
            ((controlsOpt.getD []).map fun c => (⟨c, metric, preS, preU⟩ : FetchCall)) ++
            ((controlsOpt.getD []).map fun c => (⟨c, metric, postS, postU⟩ : FetchCall)) ++
            ((controlsOpt.getD []).flatMap fun c =>
              [(⟨c, metric, preS, preU⟩ : FetchCall),
               (⟨c, metric, postS, postU⟩ : FetchCall)])) := by
      rw [fetchTrace.eq_def, hb]
      cases controlsOpt <;> rfl
    constructor
    · intro hc
      rw [hft, if_pos hc]
      rfl
    · intro hc
      rw [hft, if_neg hc]
      constructor
      · simp only [List.length_append, List.length_cons, List.length_map]
        have hlen : ((controlsOpt.getD []).flatMap fun c =>
            [(⟨c, metric, preS, preU⟩ : FetchCall),
             (⟨c, metric, postS, postU⟩ : FetchCall)]).length =
            2 * (controlsOpt.getD []).length := by
          induction controlsOpt.getD [] with
          | nil => rfl
          | cons a as ih =>
            rw [List.flatMap_cons]
            simp only [List.length_append, List.length_cons, ih]
            simp
            omega
        rw [hlen]
        simp
        omega
      · rfl

/-- C8 witness: one requested control produces exactly 2 + 4 fetches, opened
by the two subject fetches over the two windows. -/
theorem C8_fetch_count_witness :
    (fetchTrace "GB" "m" "2025-07-25" 14 14 (some ["IE"])).length = 2 + 4 * 1 ∧
    (fetchTrace "GB" "m" "2025-07-25" 14 14 (some ["IE"])).take 2 =
      [⟨"GB", "m", "2025-07-11T00:00:00", "2025-07-24T23:59:59"⟩,
       ⟨"GB", "m", "2025-07-25T00:00:00", "2025-08-08T00:00:00"⟩] :=
  ((C8_fetch_count "GB" "m" "2025-07-25" 14 14 (some ["IE"])).2
    "2025-07-11T00:00:00" "2025-07-24T23:59:59"
    "2025-07-25T00:00:00" "2025-08-08T00:00:00" (by decide)).2 (by decide)

/-- C9: in the top-entity join, with no explicit day requested the resolver
returns the lexicographically greatest day among the subject entity's records
(a day some record of the entity carries, at least as large as every other),
and that day becomes the reported day; when the entity has no record at all
the join reports no data: a `None` day with an empty result list. -/
theorem C9_latest_day_resolution (db : List RankRecord) (country : String)
    (limit : Nat) (category : Option String) :
    ((db.filter fun r => r.country == strUpper country) = [] →
      latestDateForCountry db country = none ∧
      topDomainsForDay db country none limit category = (none, [])) ∧
    (∀ r0, r0 ∈ db → r0.country = strUpper country → r0.date ≠ "" →
      ∃ d, latestDateForCountry db country = some d ∧
        (∃ rr ∈ db, rr.country = strUpper country ∧ rr.date = d) ∧
        (∀ rr ∈ db, rr.country = strUpper country → strLe rr.date d = true) ∧
        (topDomainsForDay db country none limit category).1 = some d) := by
  haveI hTot : IsTotal String (fun a b : String => strLe b a = true) :=
    ⟨fun a b => lexLe_total b.data a.data⟩
  haveI hTrans : IsTrans String (fun a b : String => strLe b a = true) :=
    ⟨fun _ _ _ h1 h2 => lexLe_trans h2 h1⟩
  constructor
  · intro hflt
    have hl : latestDateForCountry db country = none := by
      rw [latestDateForCountry, hflt]
      rfl
    refine ⟨hl, ?_⟩
    rw [topDomainsForDay, latestDateForCountry_upper, hl]
  · intro r0 hr0 hc0 hd0
    set flt := db.filter fun r => r.country == strUpper country with hflt
    set dates := flt.map RankRecord.date with hdates
    set sorted := List.insertionSort (fun a b : String => strLe b a = true) dates
      with hsorted
    have hmem : r0.date ∈ dates := by
      rw [hdates]
      exact List.mem_map_of_mem _ (List.mem_filter.2 ⟨hr0, by simp [hc0]⟩)
    have hperm : sorted.Perm dates := List.perm_insertionSort _ _
    have hs : List.Sorted (fun a b : String => strLe b a = true) sorted :=
      List.sorted_insertionSort _ _
    have hne : sorted ≠ [] := by
      intro h
      rw [h] at hperm
      rw [← hperm.nil_eq] at hmem
      exact absurd hmem (List.not_mem_nil _)
    obtain ⟨d, rest, hcons⟩ := List.exists_cons_of_ne_nil hne
    have hlatest : latestDateForCountry db country = some d := by
      rw [latestDateForCountry, ← hflt, ← hdates, ← hsorted, hcons]
      rfl
    have hall : ∀ rr ∈ db, rr.country = strUpper country → strLe rr.date d = true := by
      intro rr hrr hcrr
      have hin : rr.date ∈ sorted := hperm.mem_iff.2
        (List.mem_map_of_mem _ (List.mem_filter.2 ⟨hrr, by simp [hcrr]⟩))
      rw [hcons] at hin
      rcases List.mem_cons.1 hin with h | h
      · rw [h]; exact strLe_refl d
      · have hs2 : List.Sorted (fun a b : String => strLe b a = true) (d :: rest) :=
          hcons ▸ hs
        exact List.rel_of_sorted_cons hs2 _ h
    have hdmem : d ∈ dates := hperm.mem_iff.1 (hcons ▸ List.mem_cons_self d rest)
    have hex : ∃ rr ∈ db, rr.country = strUpper country ∧ rr.date = d := by
      rw [hdates] at hdmem
      obtain ⟨rr, hrr, hrrd⟩ := List.mem_map.1 hdmem
      have hrf := List.mem_filter.1 hrr
      exact ⟨rr, hrf.1, by simpa using hrf.2, hrrd⟩
    have hdne : d ≠ "" := by
      intro hdeq
      apply hd0
      have hle := hall r0 hr0 hc0
      rw [hdeq] at hle
      exact strLe_empty_right hle
    refine ⟨d, hlatest, hex, hall, ?_⟩
    rw [topDomainsForDay, latestDateForCountry_upper, hlatest]
    simp only [if_neg hdne]

/-- C9 witness: on the concrete store GB resolves to its latest day
2025-07-03 while FR, which has no record, reports no data. -/
theorem C9_latest_day_resolution_witness :
    (latestDateForCountry exRank "FR" = none ∧
      topDomainsForDay exRank "FR" none 10 none = (none, [])) ∧
    ∃ d, latestDateForCountry exRank "gb" = some d ∧
      (∃ rr ∈ exRank, rr.country = strUpper "gb" ∧ rr.date = d) ∧
      (∀ rr ∈ exRank, rr.country = strUpper "gb" → strLe rr.date d = true) ∧
      (topDomainsForDay exRank "gb" none 10 none).1 = some d :=
  ⟨(C9_latest_day_resolution exRank "FR" 10 none).1 rfl,
   (C9_latest_day_resolution exRank "gb" 10 none).2
     ⟨"GB", "2025-07-01", "example.org", 1, "c"⟩
     (List.mem_cons_self _ _) (by decide) (by decide)⟩

theorem computeWindowStats_subject_case (db : List Point) (c1 c2 metric event : String)
    (preDays postDays : Int) (controlsOpt : Option (List String))
    (h : strUpper c1 = strUpper c2) :
    computeWindowStats db c1 metric event preDays postDays controlsOpt =
    computeWindowStats db c2 metric event preDays postDays controlsOpt := by
  have hfs : ∀ s u, findSeries db c1 metric s u = findSeries db c2 metric s u :=
    fun s u => fetch_case_insensitive db metric s u c1 c2 h
  simp only [computeWindowStats.eq_def, hfs, h]

theorem computeWindowStats_control_case (db : List Point) (country metric event : String)
    (preDays postDays : Int) (cs1 cs2 : List String) (r1 r2 : WindowStatsReport)
    (hmap : cs1.map strUpper = cs2.map strUpper)
    (h1 : computeWindowStats db country metric event preDays postDays (some cs1) = some r1)
    (h2 : computeWindowStats db country metric event preDays postDays (some cs2) = some r2) :
    r1.country = r2.country ∧ r1.meanPre = r2.meanPre ∧ r1.meanPost = r2.meanPost ∧
    r1.pctDeltaField = r2.pctDeltaField ∧
    r1.zScoreVsControls = r2.zScoreVsControls ∧
    r1.controlsDetail.map Prod.snd = r2.controlsDetail.map Prod.snd := by
  cases hb : computeWindowBounds event preDays postDays with
  | none =>
    rw [computeWindowStats_noneOfBounds db country metric event preDays postDays
      (some cs1) hb] at h1
    cases h1
  | some bnds =>
    obtain ⟨preS, preU, postS, postU⟩ := bnds
    rw [computeWindowStats_some db country metric event preDays postDays (some cs1)
      preS preU postS postU hb] at h1
    rw [computeWindowStats_some db country metric event preDays postDays (some cs2)
      preS preU postS postU hb] at h2
    obtain rfl := (Option.some.inj h1).symm
    obtain rfl := (Option.some.inj h2).symm
    have hemp : cs1 = [] ↔ cs2 = [] := by
      constructor
      · intro h; subst h
        cases cs2 with
        | nil => rfl
        | cons b bs => simp at hmap
      · intro h; subst h
        cases cs1 with
        | nil => rfl
        | cons b bs => simp at hmap
    refine ⟨rfl, rfl, rfl, rfl, ?_, ?_⟩
    · show (if (some cs1 : Option (List String)).getD [] = [] then none else _) =
        (if (some cs2 : Option (List String)).getD [] = [] then none else _)
      simp only [Option.getD_some]
      by_cases hc1 : cs1 = []
      · rw [if_pos hc1, if_pos (hemp.1 hc1)]
      · rw [if_neg hc1, if_neg (fun hh => hc1 (hemp.2 hh)),
          fetch_map_congr db metric preS preU cs1 cs2 hmap,
          fetch_map_congr db metric postS postU cs1 cs2 hmap]
    · show (if (some cs1 : Option (List String)).getD [] = []
          then ([] : List (String × Nat × Nat)) else _).map Prod.snd =
        (if (some cs2 : Option (List String)).getD [] = []
          then ([] : List (String × Nat × Nat)) else _).map Prod.snd
      simp only [Option.getD_some]
      by_cases hc1 : cs1 = []
      · rw [if_pos hc1, if_pos (hemp.1 hc1)]
      · rw [if_neg hc1, if_neg (fun hh => hc1 (hemp.2 hh)), List.map_map, List.map_map]
        exact counts_map_congr db metric preS preU postS postU cs1 cs2 hmap

/-- C10 counterexample: two calls differing only in the letter case of a
control name return different reports, because the `controls` list (and the
`controls_detail` keys) echo the control names verbatim. -/
theorem C10_case_normalisation_counterexample :
    computeWindowStats [] "GB" "m" "2025-07-25" 14 14 (some ["ie"]) ≠
    computeWindowStats [] "GB" "m" "2025-07-25" 14 14 (some ["IE"]) := by
  have h1 : computeWindowStats [] "GB" "m" "2025-07-25" 14 14 (some ["ie"]) =
      some { country := "GB", metric := "m", event := "2025-07-25",
             preDaysField := 14, postDaysField := 14,
             meanPre := none, meanPost := none, pctDeltaField := none,
             zScoreVsControls := none,
             controlsField := ["ie"], controlsDetail := [("ie", 0, 0)] } := rfl
  have h2 : computeWindowStats [] "GB" "m" "2025-07-25" 14 14 (some ["IE"]) =
      some { country := "GB", metric := "m", event := "2025-07-25",
             preDaysField := 14, postDaysField := 14,
             meanPre := none, meanPost := none, pctDeltaField := none,
             zScoreVsControls := none,
             controlsField := ["IE"], controlsDetail := [("IE", 0, 0)] } := rfl
  rw [h1, h2]
  intro hcontra
  have h3 : (["ie"] : List String) = ["IE"] :=
    congrArg WindowStatsReport.controlsField (Option.some.inj hcontra)
  exact absurd h3 (by decide)

/-- C10 (amended): the subject entity is normalised to upper case both for
querying and in the echoed `country` field, so two calls differing only in the
subject entity's case return identical reports; each control entity is
normalised to upper case for querying only, so calls differing in a control's
case agree on every numeric field and on the `controls_detail` point counts,
while the `controls` list and the `controls_detail` keys echo the request
verbatim. -/
theorem C10_case_normalisation :
    (∀ (db : List Point) c1 c2 metric event (preDays postDays : Int) controlsOpt,
      strUpper c1 = strUpper c2 →
      computeWindowStats db c1 metric event preDays postDays controlsOpt =
      computeWindowStats db c2 metric event preDays postDays controlsOpt) ∧
    (∀ (db : List Point) metric s u c1 c2, strUpper c1 = strUpper c2 →
      findSeries db c1 metric s u = findSeries db c2 metric s u) ∧
    (∀ (db : List Point) country metric event (preDays postDays : Int) controlsOpt r,
      computeWindowStats db country metric event preDays postDays controlsOpt =
        some r →
      r.country = strUpper country ∧ r.controlsField = controlsOpt.getD []) ∧
    (∀ (db : List Point) country metric event (preDays postDays : Int)
        (cs1 cs2 : List String) r1 r2,
      cs1.map strUpper = cs2.map strUpper →
      computeWindowStats db country metric event preDays postDays (some cs1) = some r1 →
      computeWindowStats db country metric event preDays postDays (some cs2) = some r2 →
      r1.country = r2.country ∧ r1.meanPre = r2.meanPre ∧ r1.meanPost = r2.meanPost ∧
      r1.pctDeltaField = r2.pctDeltaField ∧
      r1.zScoreVsControls = r2.zScoreVsControls ∧
      r1.controlsDetail.map Prod.snd = r2.controlsDetail.map Prod.snd) := by
  refine ⟨?_, ?_, ?_, ?_⟩
  · intro db c1 c2 metric event preDays postDays controlsOpt h
    exact computeWindowStats_subject_case db c1 c2 metric event preDays postDays
      controlsOpt h
  · intro db metric s u c1 c2 h
    exact fetch_case_insensitive db metric s u c1 c2 h
  · intro db country metric event preDays postDays controlsOpt r h
    cases hb : computeWindowBounds event preDays postDays with
    | none =>
      rw [computeWindowStats_noneOfBounds db country metric event preDays postDays
        controlsOpt hb] at h
      cases h
    | some bnds =>
      obtain ⟨preS, preU, postS, postU⟩ := bnds
      rw [computeWindowStats_some db country metric event preDays postDays controlsOpt
        preS preU postS postU hb] at h
      obtain rfl := (Option.some.inj h).symm
      exact ⟨rfl, rfl⟩
  · intro db country metric event preDays postDays cs1 cs2 r1 r2 hmap h1 h2
    exact computeWindowStats_control_case db country metric event preDays postDays
      cs1 cs2 r1 r2 hmap h1 h2

/-- C10 witness: subject case-insensitivity at gb/GB, and agreement of all
non-echoed fields between the ie and IE control spellings. -/
theorem C10_case_normalisation_witness :
    computeWindowStats [] "gb" "m" "2025-07-25" 14 14 none =
      computeWindowStats [] "GB" "m" "2025-07-25" 14 14 none ∧
    WindowStatsReport.zScoreVsControls
      { country := "GB", metric := "m", event := "2025-07-25",
        preDaysField := 14, postDaysField := 14,
        meanPre := none, meanPost := none, pctDeltaField := none,
        zScoreVsControls := none,
        controlsField := ["ie"], controlsDetail := [("ie", 0, 0)] } =
    WindowStatsReport.zScoreVsControls
      { country := "GB", metric := "m", event := "2025-07-25",
        preDaysField := 14, postDaysField := 14,
        meanPre := none, meanPost := none, pctDeltaField := none,
        zScoreVsControls := none,
        controlsField := ["IE"], controlsDetail := [("IE", 0, 0)] } :=
  ⟨C10_case_normalisation.1 [] "gb" "GB" "m" "2025-07-25" 14 14 none (by decide),
   (C10_case_normalisation.2.2.2 [] "GB" "m" "2025-07-25" 14 14 ["ie"] ["IE"] _ _
     (by decide) rfl rfl).2.2.2.2.1⟩

end UKWebChangeTracker
